import Mathlib

/-!
Shallow embedding of `src/main.py` (student management system).

The backing file `students.txt` is modelled as `Option String`:
`none` means the file does not exist, `some content` is its full text.
Each of the four store operations of the Python program becomes a pure
function from a file state to an `OpResult` holding the new file state,
the list of lines printed, and the Python exception raised, if any.

Python-level details modelled faithfully:
- iterating a file in text mode splits on universal newlines
  (LF, CR, CRLF), each yielded line keeping a translated `LF` terminator
  (`pyLines`);
- `line.strip()` removes leading and trailing Python whitespace
  (`pyStrip`);
- `split(",")` splits on every comma, keeping empty fields
  (`pySplitComma`);
- the unpack `roll, name, marks = ...` raises `ValueError` unless the
  split yields exactly three fields (`parseLine` returns `none`);
- `open(..., "r")` on an absent file raises `FileNotFoundError`.
-/

set_option autoImplicit false

/-- Exceptions the Python program can raise. -/
inductive PyError where
  | fileNotFound
  | valueError
deriving DecidableEq, Repr

/-- Python `str.isspace` / the character class stripped by `str.strip()`:
0x09–0x0D, 0x1C–0x1F, space, NEL, NBSP and the Unicode space separators. -/
def isPySpace (c : Char) : Bool :=
  (0x09 ≤ c.toNat && c.toNat ≤ 0x0d) ||
  (0x1c ≤ c.toNat && c.toNat ≤ 0x1f) ||
  c.toNat = 0x20 || c.toNat = 0x85 || c.toNat = 0xa0 || c.toNat = 0x1680 ||
  (0x2000 ≤ c.toNat && c.toNat ≤ 0x200a) ||
  c.toNat = 0x2028 || c.toNat = 0x2029 || c.toNat = 0x202f ||
  c.toNat = 0x205f || c.toNat = 0x3000

/-- Python `line.strip()`: drop leading and trailing whitespace. -/
def pyStrip (s : String) : String :=
  String.mk (((s.toList.dropWhile isPySpace).reverse.dropWhile isPySpace).reverse)

/-- Helper for `pySplitComma`: split a character list at every comma. -/
def splitCommaAux : List Char → List Char → List (List Char)
  | [], acc => [acc.reverse]
  | c :: rest, acc =>
    if c = ',' then acc.reverse :: splitCommaAux rest []
    else splitCommaAux rest (c :: acc)

/-- Python `s.split(",")`. -/
def pySplitComma (s : String) : List String :=
  (splitCommaAux s.toList []).map String.mk

/-- Python `roll, name, marks = line.strip().split(",")`:
`some (roll, name, marks)` when the stripped line has exactly three
comma-separated fields, `none` when the unpack raises `ValueError`. -/
def parseLine (line : String) : Option (String × String × String) :=
  match pySplitComma (pyStrip line) with
  | [r, n, m] => some (r, n, m)
  | _ => none

/-- Helper for `pyLines`: text-mode line iteration with universal
newlines. `LF`, `CRLF` and bare `CR` all end a line; the yielded line
carries a translated `LF` terminator, exactly as Python yields it. -/
def pyLinesAux : List Char → List Char → List (List Char)
  | [], acc => if acc.isEmpty then [] else [acc.reverse]
  | '\r' :: '\n' :: rest, acc => (acc.reverse ++ ['\n']) :: pyLinesAux rest []
  | '\r' :: rest, acc => (acc.reverse ++ ['\n']) :: pyLinesAux rest []
  | '\n' :: rest, acc => (acc.reverse ++ ['\n']) :: pyLinesAux rest []
  | c :: rest, acc => pyLinesAux rest (c :: acc)

/-- The lines Python's `for line in f` / `f.readlines()` yields for a
file whose full text is `s`. -/
def pyLines (s : String) : List String :=
  (pyLinesAux s.toList []).map String.mk

/-- Whether a stored line parses and its roll field equals the query. -/
def lineRollIs (q : String) (line : String) : Bool :=
  match parseLine line with
  | some (r, _, _) => r == q
  | none => false

/-- Result of one store operation: the file state afterwards, the lines
printed to stdout, and the exception raised, if any. -/
structure OpResult where
  state : Option String
  output : List String
  err : Option PyError
deriving DecidableEq, Repr

/-- `add_student` (src/main.py lines 1–7): append `roll,name,marks\n`
to the file, creating it when absent (mode `"a"`), and report success. -/
def add_student (roll name marks : String) (st : Option String) : OpResult :=
  ⟨some ((st.getD "") ++ roll ++ "," ++ name ++ "," ++ marks ++ "\n"),
   ["Student added successfully!"],
   none⟩

/-- The body of `view_students`' loop: render each line as a row,
stopping with `ValueError` at the first line that does not unpack into
three fields. -/
def renderRows : List String → List String × Option PyError
  | [] => ([], none)
  | l :: rest =>
    match parseLine l with
    | some (r, n, m) =>
      let p := renderRows rest
      ((r ++ " | " ++ n ++ " | " ++ m) :: p.1, p.2)
    | none => ([], some PyError.valueError)

/-- `view_students` (src/main.py lines 9–18): print a header and one row
per stored line; an absent file is caught and reported as
"No records found.". -/
def view_students (st : Option String) : OpResult :=
  match st with
  | none => ⟨none, ["No records found."], none⟩
  | some content =>
    let p := renderRows (pyLines content)
    ⟨some content,
     "\nRoll | Name | Marks" :: "-------------------" :: p.1,
     p.2⟩

/-- The body of `search_student`'s loop: scan lines in order, print the
first whose roll equals the query and stop; print "Student not found."
when the scan ends without a match; `ValueError` on a malformed line. -/
def searchLoop (q : String) : List String → List String × Option PyError
  | [] => (["Student not found."], none)
  | l :: rest =>
    match parseLine l with
    | none => ([], some PyError.valueError)
    | some (r, n, m) =>
      if r == q then (["Found: " ++ r ++ " | " ++ n ++ " | " ++ m], none)
      else searchLoop q rest

/-- `search_student` (src/main.py lines 20–31): no guard for an absent
file, so `FileNotFoundError` propagates. -/
def search_student (q : String) (st : Option String) : OpResult :=
  match st with
  | none => ⟨none, [], some PyError.fileNotFound⟩
  | some content =>
    let p := searchLoop q (pyLines content)
    ⟨some content, p.1, p.2⟩

/-- The body of `delete_student`'s rewrite loop over the lines read:
returns the lines written back (each non-matching line verbatim), the
`found` flag, and the exception, if any. On `ValueError` the lines
already written stay written (the file was opened with mode `"w"`). -/
def deleteLoop (q : String) : List String → List String × Bool × Option PyError
  | [] => ([], false, none)
  | l :: rest =>
    match parseLine l with
    | none => ([], false, some PyError.valueError)
    | some (r, _, _) =>
      let p := deleteLoop q rest
      if r == q then (p.1, true, p.2.2)
      else (l :: p.1, p.2.1, p.2.2)

/-- `delete_student` (src/main.py lines 33–51): read all lines, rewrite
the file keeping the lines whose roll differs from the query, report
deleted/not-found by the `found` flag. No guard for an absent file. -/
def delete_student (q : String) (st : Option String) : OpResult :=
  match st with
  | none => ⟨none, [], some PyError.fileNotFound⟩
  | some content =>
    let p := deleteLoop q (pyLines content)
    ⟨some (String.join p.1),
     match p.2.2 with
     | some _ => []
     | none => [if p.2.1 then "Student deleted successfully."
                else "Student not found."],
     p.2.2⟩

/-- First record in line order whose roll equals the query, skipping
nothing (used to state first-match semantics of `search_student`). -/
def firstHit (q : String) (ls : List String) : Option (String × String × String) :=
  ls.findSome? fun l =>
    match parseLine l with
    | some (r, n, m) => if r == q then some (r, n, m) else none
    | none => none

/-! ### Basic facts about the string helpers -/

lemma toList_append (s t : String) : (s ++ t).toList = s.toList ++ t.toList := rfl

lemma mk_toList (s : String) : String.mk s.toList = s := rfl

lemma dropWhile_head_false (p : Char → Bool) (xs : List Char)
    (h : ∀ c, xs.head? = some c → p c = false) : xs.dropWhile p = xs := by
  cases xs with
  | nil => rfl
  | cons c rest => simp [List.dropWhile, h c rfl]

lemma splitCommaAux_no_comma (xs : List Char) :
    ∀ acc, (∀ c ∈ xs, ¬ c = ',') → splitCommaAux xs acc = [acc.reverse ++ xs] := by
  induction xs with
  | nil => intro acc _; simp [splitCommaAux]
  | cons c rest ih =>
    intro acc h
    have hc : ¬ c = ',' := h c (List.mem_cons_self c rest)
    rw [splitCommaAux, if_neg hc, ih (c :: acc) (fun d hd => h d (List.mem_cons_of_mem c hd))]
    simp

lemma splitCommaAux_break (ys : List Char) (xs : List Char) :
    ∀ acc, (∀ c ∈ xs, ¬ c = ',') →
      splitCommaAux (xs ++ ',' :: ys) acc = (acc.reverse ++ xs) :: splitCommaAux ys [] := by
  induction xs with
  | nil => intro acc _; simp [splitCommaAux]
  | cons c rest ih =>
    intro acc h
    have hc : ¬ c = ',' := h c (List.mem_cons_self c rest)
    rw [List.cons_append, splitCommaAux, if_neg hc,
      ih (c :: acc) (fun d hd => h d (List.mem_cons_of_mem c hd))]
    simp

lemma pyStrip_mk_body (body : List Char) (hne : body ≠ [])
    (h1 : ∀ c, body.head? = some c → isPySpace c = false)
    (h2 : ∀ c, body.getLast? = some c → isPySpace c = false) :
    pyStrip (String.mk (body ++ ['\n'])) = String.mk body := by
  unfold pyStrip
  have t1 : (String.mk (body ++ ['\n'])).toList = body ++ ['\n'] := rfl
  rw [t1]
  rw [dropWhile_head_false isPySpace (body ++ ['\n'])
    (fun c hc => h1 c (by rwa [List.head?_append_of_ne_nil body hne] at hc))]
  have t2 : (body ++ ['\n']).reverse = '\n' :: body.reverse := by simp
  rw [t2]
  have t3 : List.dropWhile isPySpace ('\n' :: body.reverse)
      = List.dropWhile isPySpace body.reverse := by
    simp [List.dropWhile, show isPySpace '\n' = true from rfl]
  rw [t3,
    dropWhile_head_false isPySpace body.reverse
      (fun c hc => h2 c (by rwa [List.head?_reverse] at hc)),
    List.reverse_reverse]

lemma parseLine_clean (r n m : String)
    (hr : ∀ c ∈ r.toList, ¬ c = ',') (hn : ∀ c ∈ n.toList, ¬ c = ',')
    (hm : ∀ c ∈ m.toList, ¬ c = ',')
    (hr0 : ∀ c, r.toList.head? = some c → isPySpace c = false)
    (hm0 : ∀ c, m.toList.getLast? = some c → isPySpace c = false) :
    parseLine (r ++ "," ++ n ++ "," ++ m ++ "\n") = some (r, n, m) := by
  have hbody : (r ++ "," ++ n ++ "," ++ m ++ "\n").toList
      = (r.toList ++ ',' :: n.toList ++ ',' :: m.toList) ++ ['\n'] := by
    simp [toList_append, show (",").toList = [','] from rfl,
      show ("\n").toList = ['\n'] from rfl]
  have hne : (r.toList ++ ',' :: n.toList ++ ',' :: m.toList) ≠ [] := by
    cases r.toList <;> simp
  have h1 : ∀ c, (r.toList ++ ',' :: n.toList ++ ',' :: m.toList).head? = some c →
      isPySpace c = false := by
    intro c hc
    cases hr' : r.toList with
    | nil => rw [hr'] at hc; simp at hc; rw [← hc]; rfl
    | cons a as =>
      rw [hr'] at hc; simp at hc
      exact hc ▸ hr0 a (by rw [hr']; rfl)
  have h2 : ∀ c, (r.toList ++ ',' :: n.toList ++ ',' :: m.toList).getLast? = some c →
      isPySpace c = false := by
    intro c hc
    have hassoc : r.toList ++ ',' :: n.toList ++ ',' :: m.toList
        = (r.toList ++ ',' :: n.toList) ++ ',' :: m.toList := by simp
    rw [hassoc, List.getLast?_append_cons] at hc
    cases hm' : m.toList with
    | nil =>
      rw [hm'] at hc; simp at hc; rw [← hc]; rfl
    | cons a as =>
      rw [hm', List.getLast?_cons_cons] at hc
      exact hm0 c (by rw [hm']; exact hc)
  have hstrip : pyStrip (r ++ "," ++ n ++ "," ++ m ++ "\n")
      = String.mk (r.toList ++ ',' :: n.toList ++ ',' :: m.toList) := by
    have harg : (r ++ "," ++ n ++ "," ++ m ++ "\n")
        = String.mk ((r.toList ++ ',' :: n.toList ++ ',' :: m.toList) ++ ['\n']) := by
      rw [← hbody, mk_toList]
    rw [harg]
    exact pyStrip_mk_body _ hne h1 h2
  unfold parseLine pySplitComma
  rw [hstrip]
  have htl : (String.mk (r.toList ++ ',' :: n.toList ++ ',' :: m.toList)).toList
      = r.toList ++ ',' :: (n.toList ++ ',' :: m.toList) := by simp
  rw [htl]
  rw [splitCommaAux_break _ _ _ hr, splitCommaAux_break _ _ _ hn,
    splitCommaAux_no_comma _ _ hm]
  simp [mk_toList]

/-! ### Facts about line splitting -/

lemma getLast?_cons_of_ne_nil (x : Char) (rest : List Char) (h : rest ≠ []) :
    (x :: rest).getLast? = rest.getLast? := by
  cases rest with
  | nil => exact absurd rfl h
  | cons b bs => exact List.getLast?_cons_cons

lemma pyLinesAux_cons_other (c : Char) (rest acc : List Char)
    (h1 : ¬ c = '\n') (h2 : ¬ c = '\r') :
    pyLinesAux (c :: rest) acc = pyLinesAux rest (c :: acc) := by
  simp [pyLinesAux, h1, h2]

lemma pyLinesAux_cr_cons (b : Char) (bs acc : List Char) (hb : ¬ b = '\n') :
    pyLinesAux ('\r' :: b :: bs) acc
      = (acc.reverse ++ ['\n']) :: pyLinesAux (b :: bs) [] := by
  simp [pyLinesAux, hb]

lemma pyLinesAux_append (ds : List Char) (cs acc : List Char) :
    cs.getLast? = some '\n' →
    pyLinesAux (cs ++ ds) acc = pyLinesAux cs acc ++ pyLinesAux ds [] := by
  induction cs, acc using pyLinesAux.induct with
  | case1 acc hacc => intro h; simp at h
  | case2 acc hacc => intro h; simp at h
  | case3 rest acc ih =>
    intro h
    by_cases hr : rest = []
    · subst hr; simp [pyLinesAux]
    · have hlast : rest.getLast? = some '\n' := by
        rw [List.getLast?_cons_cons, getLast?_cons_of_ne_nil '\n' rest hr] at h
        exact h
      calc pyLinesAux (('\r' :: '\n' :: rest) ++ ds) acc
          = (acc.reverse ++ ['\n']) :: pyLinesAux (rest ++ ds) [] := rfl
        _ = (acc.reverse ++ ['\n']) :: (pyLinesAux rest [] ++ pyLinesAux ds []) := by
            rw [ih hlast]
        _ = pyLinesAux ('\r' :: '\n' :: rest) acc ++ pyLinesAux ds [] := rfl
  | case4 rest acc hnot ih =>
    intro h
    cases hr : rest with
    | nil => subst hr; simp at h
    | cons b bs =>
      have hb : ¬ b = '\n' := by
        intro hb'
        exact hnot bs (by rw [hr, hb'])
      subst hr
      have hlast : (b :: bs).getLast? = some '\n' := by
        rw [getLast?_cons_of_ne_nil '\r' (b :: bs) (by simp)] at h
        exact h
      calc pyLinesAux (('\r' :: b :: bs) ++ ds) acc
          = pyLinesAux ('\r' :: b :: (bs ++ ds)) acc := rfl
        _ = (acc.reverse ++ ['\n']) :: pyLinesAux (b :: (bs ++ ds)) [] :=
            pyLinesAux_cr_cons b (bs ++ ds) acc hb
        _ = (acc.reverse ++ ['\n']) :: pyLinesAux ((b :: bs) ++ ds) [] := rfl
        _ = (acc.reverse ++ ['\n']) :: (pyLinesAux (b :: bs) [] ++ pyLinesAux ds []) := by
            rw [ih hlast]
        _ = pyLinesAux ('\r' :: b :: bs) acc ++ pyLinesAux ds [] := by
            rw [pyLinesAux_cr_cons b bs acc hb]; rfl
  | case5 rest acc ih =>
    intro h
    by_cases hr : rest = []
    · subst hr; simp [pyLinesAux]
    · have hlast : rest.getLast? = some '\n' := by
        rw [getLast?_cons_of_ne_nil '\n' rest hr] at h
        exact h
      calc pyLinesAux (('\n' :: rest) ++ ds) acc
          = (acc.reverse ++ ['\n']) :: pyLinesAux (rest ++ ds) [] := rfl
        _ = (acc.reverse ++ ['\n']) :: (pyLinesAux rest [] ++ pyLinesAux ds []) := by
            rw [ih hlast]
        _ = pyLinesAux ('\n' :: rest) acc ++ pyLinesAux ds [] := rfl
  | case6 c rest acc hcr hc1 hc2 ih =>
    intro h
    cases hr : rest with
    | nil =>
      subst hr
      simp at h
      exact absurd h hc2
    | cons b bs =>
      subst hr
      have hlast : (b :: bs).getLast? = some '\n' := by
        rw [getLast?_cons_of_ne_nil c (b :: bs) (by simp)] at h
        exact h
      have hc2' : ¬ c = '\n' := hc2
      have hc1' : ¬ c = '\r' := hc1
      calc pyLinesAux ((c :: b :: bs) ++ ds) acc
          = pyLinesAux (c :: ((b :: bs) ++ ds)) acc := rfl
        _ = pyLinesAux ((b :: bs) ++ ds) (c :: acc) :=
            pyLinesAux_cons_other c ((b :: bs) ++ ds) acc hc2' hc1'
        _ = pyLinesAux (b :: bs) (c :: acc) ++ pyLinesAux ds [] := ih hlast
        _ = pyLinesAux (c :: b :: bs) acc ++ pyLinesAux ds [] := by
            rw [pyLinesAux_cons_other c (b :: bs) acc hc2' hc1']

lemma pyLinesAux_clean (cs : List Char) :
    ∀ acc, (∀ c ∈ cs, ¬ c = '\n' ∧ ¬ c = '\r') →
      pyLinesAux (cs ++ ['\n']) acc = [acc.reverse ++ cs ++ ['\n']] := by
  induction cs with
  | nil => intro acc _; simp [pyLinesAux]
  | cons c rest ih =>
    intro acc h
    obtain ⟨h1, h2⟩ := h c (List.mem_cons_self c rest)
    rw [List.cons_append, pyLinesAux_cons_other c (rest ++ ['\n']) acc h1 h2,
      ih (c :: acc) (fun d hd => h d (List.mem_cons_of_mem c hd))]
    simp

lemma pyLines_append_chunk (content : String) (body : List Char)
    (hterm : content = "" ∨ content.toList.getLast? = some '\n')
    (hbody : ∀ c ∈ body, ¬ c = '\n' ∧ ¬ c = '\r') :
    pyLines (content ++ String.mk (body ++ ['\n']))
      = pyLines content ++ [String.mk (body ++ ['\n'])] := by
  unfold pyLines
  have ht : (content ++ String.mk (body ++ ['\n'])).toList
      = content.toList ++ (body ++ ['\n']) := rfl
  rw [ht]
  cases hterm with
  | inl h =>
    subst h
    rw [show ("" : String).toList = [] from rfl]
    rw [List.nil_append, pyLinesAux_clean body [] hbody]
    simp [pyLinesAux]
  | inr h =>
    rw [pyLinesAux_append (body ++ ['\n']) content.toList [] h,
      pyLinesAux_clean body [] hbody]
    simp

/-! ### Characterizations of the three scan loops -/

/-- The row `view_students` prints for a stored line (for parseable lines). -/
def rowOf (l : String) : String :=
  match parseLine l with
  | some (r, n, m) => r ++ " | " ++ n ++ " | " ++ m
  | none => ""

lemma renderRows_append (xs ys : List String)
    (h : ∀ l ∈ xs, (parseLine l).isSome) :
    renderRows (xs ++ ys) = (xs.map rowOf ++ (renderRows ys).1, (renderRows ys).2) := by
  induction xs with
  | nil => simp [renderRows]
  | cons l xs ih =>
    have hl := h l (List.mem_cons_self l xs)
    rcases hpl : parseLine l with _ | ⟨r, n, m⟩
    · rw [hpl] at hl; simp at hl
    · rw [List.cons_append]
      simp only [renderRows, hpl, List.map_cons, rowOf]
      rw [ih (fun d hd => h d (List.mem_cons_of_mem l hd))]
      simp

lemma renderRows_all_ok (xs : List String)
    (h : ∀ l ∈ xs, (parseLine l).isSome) :
    renderRows xs = (xs.map rowOf, none) := by
  have := renderRows_append xs [] h
  simpa [renderRows] using this

lemma deleteLoop_eq (q : String) (ls : List String)
    (h : ∀ l ∈ ls, (parseLine l).isSome) :
    deleteLoop q ls
      = (ls.filter (fun l => !(lineRollIs q l)), ls.any (fun l => lineRollIs q l), none) := by
  induction ls with
  | nil => simp [deleteLoop]
  | cons l ls ih =>
    have hl := h l (List.mem_cons_self l ls)
    rcases hpl : parseLine l with _ | ⟨r, n, m⟩
    · rw [hpl] at hl; simp at hl
    · have hroll : lineRollIs q l = (r == q) := by
        simp [lineRollIs, hpl]
      have ih' := ih (fun d hd => h d (List.mem_cons_of_mem l hd))
      cases hrq : (r == q) with
      | true =>
        simp [deleteLoop, hpl, hrq, ih', List.filter_cons, List.any_cons, hroll]
      | false =>
        simp [deleteLoop, hpl, hrq, ih', List.filter_cons, List.any_cons, hroll]

lemma searchLoop_eq (q : String) (ls : List String)
    (h : ∀ l ∈ ls, (parseLine l).isSome) :
    searchLoop q ls
      = (match firstHit q ls with
         | some (r, n, m) => (["Found: " ++ r ++ " | " ++ n ++ " | " ++ m], none)
         | none => (["Student not found."], none)) := by
  induction ls with
  | nil => simp [searchLoop, firstHit]
  | cons l ls ih =>
    have hl := h l (List.mem_cons_self l ls)
    rcases hpl : parseLine l with _ | ⟨r, n, m⟩
    · rw [hpl] at hl; simp at hl
    · cases hrq : (r == q) with
      | true =>
        have hrq' : r = q := by simpa using hrq
        simp [searchLoop, hpl, hrq, hrq', firstHit, List.findSome?_cons]
      | false =>
        simp only [searchLoop, hpl, hrq, firstHit, List.findSome?_cons, if_neg]
        rw [ih (fun d hd => h d (List.mem_cons_of_mem l hd))]
        rfl

/-! ### Bridge lemmas for the append shape of `add_student` -/

lemma string_append_assoc (a b c : String) : a ++ b ++ c = a ++ (b ++ c) :=
  congrArg String.mk (List.append_assoc a.data b.data c.data)

lemma chunk_toList (r n m : String) :
    (r ++ "," ++ n ++ "," ++ m ++ "\n").toList
      = (r.toList ++ ',' :: n.toList ++ ',' :: m.toList) ++ ['\n'] := by
  simp [toList_append, show (",").toList = [','] from rfl,
    show ("\n").toList = ['\n'] from rfl]

lemma chunk_eq_mk (r n m : String) :
    r ++ "," ++ n ++ "," ++ m ++ "\n"
      = String.mk ((r.toList ++ ',' :: n.toList ++ ',' :: m.toList) ++ ['\n']) := by
  conv_lhs => rw [← mk_toList (r ++ "," ++ n ++ "," ++ m ++ "\n")]
  rw [chunk_toList]

lemma body_no_newline (r n m : String)
    (hr : ∀ c ∈ r.toList, ¬ c = '\n' ∧ ¬ c = '\r')
    (hn : ∀ c ∈ n.toList, ¬ c = '\n' ∧ ¬ c = '\r')
    (hm : ∀ c ∈ m.toList, ¬ c = '\n' ∧ ¬ c = '\r') :
    ∀ c ∈ r.toList ++ ',' :: n.toList ++ ',' :: m.toList, ¬ c = '\n' ∧ ¬ c = '\r' := by
  intro c hc
  rcases List.mem_append.mp hc with h12 | h3
  · rcases List.mem_append.mp h12 with h1 | h2
    · exact hr c h1
    · rcases List.mem_cons.mp h2 with rfl | h5
      · exact ⟨by decide, by decide⟩
      · exact hn c h5
  · rcases List.mem_cons.mp h3 with rfl | h6
    · exact ⟨by decide, by decide⟩
    · exact hm c h6

/-! ### The claims -/

/-- C6: when the backing file does not exist, List() reports the
user-facing message "No records found." instead of failing or
propagating the file-not-found error. -/
theorem view_students_absent_reports_message :
    view_students none = ⟨none, ["No records found."], none⟩ := rfl

/-- C4 counterexample: on an existing but empty backing file the store
holds zero records, yet List() does not report "No records found.";
it prints only the header. -/
theorem view_students_empty_file_no_message :
    ¬ ("No records found." ∈ (view_students (some "")).output) := by decide

/-- C4 amended: List() on an absent backing file reports
"No records found." without error; on an existing but empty file it
prints only the two header lines, no records, and also no error. -/
theorem view_students_zero_records :
    view_students none = ⟨none, ["No records found."], none⟩ ∧
    view_students (some "")
      = ⟨some "", ["\nRoll | Name | Marks", "-------------------"], none⟩ := by
  exact ⟨rfl, by decide⟩

/-- C5: Search on an absent backing file propagates the underlying
read failure (`FileNotFoundError`) as an unhandled error, with no
output, unlike List, which guards that case and raises nothing. -/
theorem search_student_absent_propagates (q : String) :
    search_student q none = ⟨none, [], some PyError.fileNotFound⟩ ∧
    (view_students none).err = none :=
  ⟨rfl, rfl⟩

/-- C9: List() does not mutate the store: its resulting file state is
the input state, and a second List() call with no intervening Add or
Delete prints exactly the same output. -/
theorem view_students_idempotent (st : Option String) :
    (view_students st).state = st ∧
    (view_students ((view_students st).state)).output = (view_students st).output := by
  cases st with
  | none => exact ⟨rfl, rfl⟩
  | some c => exact ⟨rfl, rfl⟩

/-- C7: fields are stored with no escaping of the comma delimiter:
Add with the name "A,B" reports success, but the stored line no longer
parses as the three added fields (the unpack fails), so List, Search
and Delete all hit `ValueError` on that line. -/
theorem comma_in_name_corrupts :
    (add_student "1" "A,B" "10" (some "")).output = ["Student added successfully!"] ∧
    (add_student "1" "A,B" "10" (some "")).err = none ∧
    (add_student "1" "A,B" "10" (some "")).state = some "1,A,B,10\n" ∧
    parseLine "1,A,B,10\n" = none ∧
    (view_students (some "1,A,B,10\n")).err = some PyError.valueError ∧
    (search_student "1" (some "1,A,B,10\n")).err = some PyError.valueError ∧
    (delete_student "1" (some "1,A,B,10\n")).err = some PyError.valueError := by
  decide

/-- C1: on a store whose lines all parse, Delete(q) removes every
stored record whose roll equals q (the rewritten file is exactly the
non-matching lines, so duplicates are all removed in the one pass),
raises nothing, and reports deleted/not-found exactly by whether at
least one record was removed. -/
theorem delete_student_removes_all (q content : String)
    (h : ∀ l ∈ pyLines content, (parseLine l).isSome) :
    (delete_student q (some content)).err = none ∧
    (delete_student q (some content)).state
      = some (String.join ((pyLines content).filter (fun l => !(lineRollIs q l)))) ∧
    ((delete_student q (some content)).output = ["Student deleted successfully."]
      ↔ (pyLines content).any (fun l => lineRollIs q l) = true) ∧
    ((delete_student q (some content)).output = ["Student not found."]
      ↔ (pyLines content).any (fun l => lineRollIs q l) = false) := by
  have hd := deleteLoop_eq q (pyLines content) h
  refine ⟨by simp [delete_student, hd], by simp [delete_student, hd], ?_, ?_⟩
  · cases hany : (pyLines content).any (fun l => lineRollIs q l) <;>
      simp [delete_student, hd, hany]
  · cases hany : (pyLines content).any (fun l => lineRollIs q l) <;>
      simp [delete_student, hd, hany]

/-- C1 witness: Add("1","A","10") then Add("1","B","20") then
Delete("1") leaves an empty store: both duplicate records are removed,
and the deletion is reported. -/
theorem delete_student_removes_all_witness :
    (add_student "1" "B" "20" (add_student "1" "A" "10" none).state).state
      = some "1,A,10\n1,B,20\n" ∧
    (∀ l ∈ pyLines "1,A,10\n1,B,20\n", (parseLine l).isSome) ∧
    (delete_student "1" (some "1,A,10\n1,B,20\n")).state = some "" ∧
    (delete_student "1" (some "1,A,10\n1,B,20\n")).output
      = ["Student deleted successfully."] := by
  have h := delete_student_removes_all "1" "1,A,10\n1,B,20\n" (by decide)
  refine ⟨by decide, by decide, ?_, ?_⟩
  · rw [h.2.1]; decide
  · exact h.2.2.1.mpr (by decide)

/-- C10: Delete(q) writes back exactly the lines whose parsed roll
field differs from q: each surviving line is kept verbatim (its
terminator included) and in the original relative order, and the
rewritten file is their concatenation; only matching lines are
omitted. -/
theorem delete_student_preserves_nonmatching (q content : String)
    (h : ∀ l ∈ pyLines content, (parseLine l).isSome) :
    (deleteLoop q (pyLines content)).1
      = (pyLines content).filter (fun l => !(lineRollIs q l)) ∧
    (delete_student q (some content)).state
      = some (String.join ((pyLines content).filter (fun l => !(lineRollIs q l)))) := by
  have hd := deleteLoop_eq q (pyLines content) h
  exact ⟨by rw [hd], by simp [delete_student, hd]⟩

/-- C10 witness: deleting roll "1" from a three-line store keeps the
single non-matching line verbatim and rewrites the file to exactly
that line. -/
theorem delete_student_preserves_nonmatching_witness :
    (∀ l ∈ pyLines "1,A,10\n2,B,20\n1,C,30\n", (parseLine l).isSome) ∧
    (deleteLoop "1" (pyLines "1,A,10\n2,B,20\n1,C,30\n")).1 = ["2,B,20\n"] ∧
    (delete_student "1" (some "1,A,10\n2,B,20\n1,C,30\n")).state
      = some "2,B,20\n" := by
  have h := delete_student_preserves_nonmatching "1" "1,A,10\n2,B,20\n1,C,30\n" (by decide)
  refine ⟨by decide, ?_, ?_⟩
  · rw [h.1]; decide
  · rw [h.2]; decide

/-- C3: on a store whose lines all parse, Search(q) scans the lines
sequentially from the first and reports the first record in line order
whose roll equals q; when no stored record matches it reports
not-found; in both cases nothing is raised and the file is unchanged. -/
theorem search_student_first_match (q content : String)
    (h : ∀ l ∈ pyLines content, (parseLine l).isSome) :
    search_student q (some content)
      = ⟨some content,
         (match firstHit q (pyLines content) with
          | some (r, n, m) => ["Found: " ++ r ++ " | " ++ n ++ " | " ++ m]
          | none => ["Student not found."]),
         none⟩ := by
  have hs := searchLoop_eq q (pyLines content) h
  cases hf : firstHit q (pyLines content) with
  | none => simp [search_student, hs, hf]
  | some t =>
    rcases t with ⟨r, n, m⟩
    simp [search_student, hs, hf]

/-- C3 witness: after Add("2","Bob","95") the store is "2,Bob,95\n" and
Search("2") returns that record; with a duplicate roll the first record
in line order wins; Search("9") on a store without roll "9" reports
not-found. -/
theorem search_student_first_match_witness :
    (add_student "2" "Bob" "95" none).state = some "2,Bob,95\n" ∧
    search_student "2" (some "2,Bob,95\n2,Zed,1\n")
      = ⟨some "2,Bob,95\n2,Zed,1\n", ["Found: 2 | Bob | 95"], none⟩ ∧
    search_student "9" (some "2,Bob,95\n")
      = ⟨some "2,Bob,95\n", ["Student not found."], none⟩ := by
  refine ⟨by decide, ?_, ?_⟩
  · exact (search_student_first_match "2" "2,Bob,95\n2,Zed,1\n" (by decide)).trans
      (by decide)
  · exact (search_student_first_match "9" "2,Bob,95\n" (by decide)).trans (by decide)

/-- C8: Add(roll, name, marks) appends the single line
`roll,name,marks` (newline-terminated) to the end of the backing file,
creating it when absent (`st.getD ""`), leaves all previously stored
text unchanged as a prefix, and always reports success with no error;
when the fields are free of line breaks and the old content is empty or
newline-terminated, the stored line list grows by exactly that one
line. -/
theorem add_student_appends_one_line (r n m : String) (st : Option String) :
    (add_student r n m st).state
      = some ((st.getD "") ++ (r ++ "," ++ n ++ "," ++ m ++ "\n")) ∧
    (add_student r n m st).output = ["Student added successfully!"] ∧
    (add_student r n m st).err = none ∧
    ((∀ c ∈ r.toList ++ n.toList ++ m.toList, ¬ c = '\n' ∧ ¬ c = '\r') →
      ((st.getD "") = "" ∨ (st.getD "").toList.getLast? = some '\n') →
      pyLines ((st.getD "") ++ (r ++ "," ++ n ++ "," ++ m ++ "\n"))
        = pyLines (st.getD "") ++ [r ++ "," ++ n ++ "," ++ m ++ "\n"]) := by
  refine ⟨by simp [add_student, string_append_assoc], rfl, rfl, ?_⟩
  intro hclean hterm
  have hr' : ∀ c ∈ r.toList, ¬ c = '\n' ∧ ¬ c = '\r' := fun c hc =>
    hclean c (List.mem_append.mpr (Or.inl (List.mem_append.mpr (Or.inl hc))))
  have hn' : ∀ c ∈ n.toList, ¬ c = '\n' ∧ ¬ c = '\r' := fun c hc =>
    hclean c (List.mem_append.mpr (Or.inl (List.mem_append.mpr (Or.inr hc))))
  have hm' : ∀ c ∈ m.toList, ¬ c = '\n' ∧ ¬ c = '\r' := fun c hc =>
    hclean c (List.mem_append.mpr (Or.inr hc))
  rw [chunk_eq_mk r n m]
  exact pyLines_append_chunk (st.getD "") _ hterm (body_no_newline r n m hr' hn' hm')

/-- C8 witness: adding ("2","Bob","95") to the file "1,A,10\n" appends
exactly the one line "2,Bob,95\n" and keeps the old line unchanged. -/
theorem add_student_appends_one_line_witness :
    (add_student "2" "Bob" "95" (some "1,A,10\n")).state = some "1,A,10\n2,Bob,95\n" ∧
    pyLines ("1,A,10\n" ++ ("2" ++ "," ++ "Bob" ++ "," ++ "95" ++ "\n"))
      = pyLines "1,A,10\n" ++ ["2" ++ "," ++ "Bob" ++ "," ++ "95" ++ "\n"] := by
  have h := add_student_appends_one_line "2" "Bob" "95" (some "1,A,10\n")
  exact ⟨by decide, h.2.2.2 (by decide) (by decide)⟩

/-- C2 counterexample: the round trip fails when a field contains the
delimiter: after Add("1","A,B","10") on an empty store, List() does not
include the row "1 | A,B | 10" (the stored line no longer unpacks into
three fields). -/
theorem add_list_round_trip_fails :
    (add_student "1" "A,B" "10" none).output = ["Student added successfully!"] ∧
    ¬ ("1 | A,B | 10" ∈ (view_students (add_student "1" "A,B" "10" none).state).output) := by
  decide

/-- C2 amended: if roll, name and marks contain no comma and no line
break, roll does not start with whitespace, marks does not end with
whitespace, every line already stored parses, and the stored content is
empty or newline-terminated, then Add(r, n, m) followed by List()
produces an output that includes the row `r | n | m`. -/
theorem add_list_round_trip (r n m : String) (st : Option String)
    (hr : ∀ c ∈ r.toList, ¬ c = ',' ∧ ¬ c = '\n' ∧ ¬ c = '\r')
    (hn : ∀ c ∈ n.toList, ¬ c = ',' ∧ ¬ c = '\n' ∧ ¬ c = '\r')
    (hm : ∀ c ∈ m.toList, ¬ c = ',' ∧ ¬ c = '\n' ∧ ¬ c = '\r')
    (hr0 : r.toList.head?.all (fun c => !(isPySpace c)) = true)
    (hm0 : m.toList.getLast?.all (fun c => !(isPySpace c)) = true)
    (hprev : ∀ l ∈ pyLines (st.getD ""), (parseLine l).isSome)
    (hterm : (st.getD "") = "" ∨ (st.getD "").toList.getLast? = some '\n') :
    (r ++ " | " ++ n ++ " | " ++ m)
      ∈ (view_students (add_student r n m st).state).output := by
  have hstate : (add_student r n m st).state
      = some ((st.getD "") ++ (r ++ "," ++ n ++ "," ++ m ++ "\n")) := by
    simp [add_student, string_append_assoc]
  rw [hstate]
  have hpl : pyLines ((st.getD "") ++ (r ++ "," ++ n ++ "," ++ m ++ "\n"))
      = pyLines (st.getD "") ++ [r ++ "," ++ n ++ "," ++ m ++ "\n"] := by
    rw [chunk_eq_mk r n m]
    exact pyLines_append_chunk (st.getD "") _ hterm
      (body_no_newline r n m (fun c hc => (hr c hc).2) (fun c hc => (hn c hc).2)
        (fun c hc => (hm c hc).2))
  have hr0' : ∀ c, r.toList.head? = some c → isPySpace c = false := by
    intro c hc
    rw [hc] at hr0
    simpa using hr0
  have hm0' : ∀ c, m.toList.getLast? = some c → isPySpace c = false := by
    intro c hc
    rw [hc] at hm0
    simpa using hm0
  have hparse : parseLine (r ++ "," ++ n ++ "," ++ m ++ "\n") = some (r, n, m) :=
    parseLine_clean r n m (fun c hc => (hr c hc).1) (fun c hc => (hn c hc).1)
      (fun c hc => (hm c hc).1) hr0' hm0'
  have hout : (view_students (some ((st.getD "") ++ (r ++ "," ++ n ++ "," ++ m ++ "\n")))).output
      = "\nRoll | Name | Marks" :: "-------------------"
        :: (renderRows (pyLines ((st.getD "") ++ (r ++ "," ++ n ++ "," ++ m ++ "\n")))).1 := rfl
  rw [hout, hpl, renderRows_append _ _ hprev]
  simp [renderRows, hparse]

/-- C2 witness: a clean record round-trips: after Add("2","Bob","95")
on the store "1,A,10\n", List() includes the row "2 | Bob | 95". -/
theorem add_list_round_trip_witness :
    ("2" ++ " | " ++ "Bob" ++ " | " ++ "95")
      ∈ (view_students (add_student "2" "Bob" "95" (some "1,A,10\n")).state).output :=
  add_list_round_trip "2" "Bob" "95" (some "1,A,10\n") (by decide) (by decide)
    (by decide) (by decide) (by decide) (by decide) (by decide)
